import Mathlib

/-!
Shallow embedding of the arcwright-site payment reconciliation engine.

The embedding follows the JavaScript source files:
  src/lib/db.js            (payments table and its update statements)
  src/lib/monitor.js       (EVM chain monitor: USDC logs, native ETH scan)
  src/lib/solana-monitor.js (Solana monitor: amount-map matching)
  src/lib/prices.js        (price cache and usdToCrypto)
  src/server.js            (download endpoint, confirmation callback)

Amounts are modelled as exact rationals, times as integers (milliseconds),
database rows as Lean structures, and the SQL update statements as pure
functions from row lists to row lists.  Fallible RPC calls are modelled
with Option: none stands for a thrown error.
-/

namespace Arcwright

/-- Row of the payments table (schema in src/lib/db.js).  The column
amount_crypto does not exist in the CREATE TABLE statement; the monitors
nevertheless read the field from the row object, so it is modelled as an
Option that is none when absent. -/
structure Payment where
  id : String
  email : String
  product_slug : String
  amount_usd : Rat
  amount_crypto : Option Rat
  crypto : String
  chain : String
  pay_address : String
  address_index : Int
  status : String
  tx_hash : Option String
  download_token : Option String
  created_at : Int
  confirmed_at : Option Int
  delivered_at : Option Int
deriving Repr, DecidableEq

/-- Row of the products table (src/lib/db.js). -/
structure Product where
  slug : String
  name : String
  description : String
  price_usd : Rat
  file_path : String
  active : Bool
deriving Repr, DecidableEq

/-- SELECT * FROM payments WHERE status = pending (db.js getPendingPayments). -/
def getPendingPayments (dbp : List Payment) : List Payment :=
  dbp.filter (fun p => decide (p.status = "pending"))

/-- SELECT * FROM payments WHERE download_token = ? AND status IN
(confirmed, delivered) (db.js getPaymentByToken); .get returns the first
matching row. -/
def getPaymentByToken (dbp : List Payment) (token : String) : Option Payment :=
  dbp.find? (fun p =>
    decide (p.download_token = some token) &&
    (decide (p.status = "confirmed") || decide (p.status = "delivered")))

/-- UPDATE payments SET status = confirmed, tx_hash = ?, download_token = ?,
confirmed_at = ? WHERE id = ? (db.js confirmPayment).  The update is
conditioned on the id only, not on the current status. -/
def confirmPayment (dbp : List Payment) (id txHash downloadToken : String)
    (now : Int) : List Payment :=
  dbp.map (fun p =>
    if p.id = id then
      { p with status := "confirmed", tx_hash := some txHash,
               download_token := some downloadToken, confirmed_at := some now }
    else p)

/-- UPDATE payments SET status = delivered, delivered_at = ? WHERE id = ?
(db.js markDelivered).  The update is conditioned on the id only. -/
def markDelivered (dbp : List Payment) (id : String) (now : Int) : List Payment :=
  dbp.map (fun p =>
    if p.id = id then { p with status := "delivered", delivered_at := some now }
    else p)

/-- Effect of the expiry sweep UPDATE on one row: the row is set to expired
exactly when its status is pending and created_at is strictly below the
cutoff. -/
def expireRow (cutoff : Int) (p : Payment) : Payment :=
  if p.status = "pending" ∧ p.created_at < cutoff then
    { p with status := "expired" }
  else p

/-- UPDATE payments SET status = expired WHERE status = pending AND
created_at < cutoff, with cutoff = now - timeoutMs (db.js expireOldPayments). -/
def expireOldPayments (dbp : List Payment) (timeoutMs now : Int) : List Payment :=
  dbp.map (expireRow (now - timeoutMs))

/-- Decoded ERC-20 Transfer log as the monitor sees it (monitor.js
_checkUsdcTransfers): destination address from topics[2], amount after
formatUnits with 6 decimals, and the transaction hash. -/
structure EvmLog where
  toAddr : String
  amount : Rat
  txHash : String
deriving Repr, DecidableEq

/-- Transaction of a fetched block, as read by _checkEthTransfers: the
destination (null for contract creation), the native value after
formatEther, and the hash. -/
structure EvmTx where
  toAddr : Option String
  value : Rat
  hash : String
deriving Repr, DecidableEq

/-- Result of getBlockWithTransactions for one block: err models a thrown
RPC error, missing models a null block, ok carries the transactions. -/
inductive BlockFetch where
  | err : BlockFetch
  | missing : BlockFetch
  | ok : List EvmTx → BlockFetch

/-- External chain responses for one tick of the EVM monitor.  none models
a thrown RPC error for the corresponding call. -/
structure ChainEnv where
  blockNumber : Option Int
  logs : Option (List EvmLog)
  blocks : Int → BlockFetch

/-- Argument triple of an onPaymentConfirmed invocation: the matched
payment, the external transaction reference and the observed amount. -/
structure Confirmed where
  payment : Payment
  txRef : String
  amount : Rat
deriving Repr, DecidableEq

/-- ASCII lowercasing as applied by the monitors to hex addresses (the
JavaScript toLowerCase call). -/
def lowerStr (s : String) : String := ⟨s.data.map Char.toLower⟩

/-- Decision taken by _checkUsdcTransfers for one log: the destination must
be in the address set, the first pending payment with that pay_address is
looked up, and the amount must be at least 99 percent of amount_usd. -/
def usdcLogConfirm (pending : List Payment) (addrSet : List String)
    (log : EvmLog) : Option Confirmed :=
  if addrSet.contains (lowerStr log.toAddr) then
    match pending.find? (fun p => decide (lowerStr p.pay_address = lowerStr log.toAddr)) with
    | some payment =>
        if payment.amount_usd * (99 / 100) ≤ log.amount then
          some ⟨payment, log.txHash, log.amount⟩
        else none
    | none => none
  else none

/-- Body of _checkUsdcTransfers: the getLogs call may fail, in which case
the error is caught inside the function and no confirmation is raised. -/
def checkUsdcTransfers (env : ChainEnv) (pending : List Payment)
    (addrSet : List String) : List Confirmed :=
  match env.logs with
  | none => []
  | some logs => logs.filterMap (usdcLogConfirm pending addrSet)

/-- Block numbers visited by the _checkEthTransfers loop: from
max fromBlock (toBlock - maxRange + 1) up to toBlock, with maxRange = 5. -/
def ethScannedBlocks (fromBlock toBlock : Int) : List Int :=
  let start := max fromBlock (toBlock - 5 + 1)
  (List.range (toBlock + 1 - start).toNat).map (fun (i : Nat) => start + (i : Int))

/-- Decision taken by _checkEthTransfers for one transaction: skip when the
destination is null or the value is zero; otherwise the destination must be
in the address set, the first pending payment with that pay_address is
looked up, it must carry a truthy amount_crypto, and the value must be at
least 99.5 percent of amount_crypto. -/
def ethTxConfirm (pending : List Payment) (addrSet : List String)
    (tx : EvmTx) : Option Confirmed :=
  match tx.toAddr with
  | none => none
  | some toA =>
    if tx.value = 0 then none
    else if addrSet.contains (lowerStr toA) then
      match pending.find? (fun p => decide (lowerStr p.pay_address = lowerStr toA)) with
      | some payment =>
          match payment.amount_crypto with
          | some expected =>
              if expected = 0 then none
              else if expected * (995 / 1000) ≤ tx.value then
                some ⟨payment, tx.hash, tx.value⟩
              else none
          | none => none
      | none => none
    else none

/-- Loop body of _checkEthTransfers over the scanned block list: a thrown
block fetch aborts the remaining blocks (the error is caught and swallowed
by the surrounding try), a null block is skipped, an ok block contributes
the confirmations of its transactions. -/
def checkEthBlocks (env : ChainEnv) (pending : List Payment)
    (addrSet : List String) : List Int → List Confirmed
  | [] => []
  | b :: rest =>
    match env.blocks b with
    | .err => []
    | .missing => checkEthBlocks env pending addrSet rest
    | .ok txs =>
        txs.filterMap (ethTxConfirm pending addrSet) ++
          checkEthBlocks env pending addrSet rest

/-- Body of _checkEthTransfers. -/
def checkEthTransfers (env : ChainEnv) (fromBlock toBlock : Int)
    (pending : List Payment) (addrSet : List String) : List Confirmed :=
  checkEthBlocks env pending addrSet (ethScannedBlocks fromBlock toBlock)

/-- One tick of the EVM monitor (_checkNewBlocks).  The result is none when
getBlockNumber throws (the error propagates to the poll loop and lastBlock
is untouched); otherwise it is the new value of lastBlock together with the
confirmations raised during the tick.  Note that the final assignment
lastBlock = currentBlock runs whenever the scan subroutines return, even
when they caught an RPC error internally. -/
def checkNewBlocks (env : ChainEnv) (lastBlock : Int) (dbp : List Payment)
    (chainName : String) (usdcAddress : Option String) :
    Option (Int × List Confirmed) :=
  match env.blockNumber with
  | none => none
  | some currentBlock =>
    if currentBlock ≤ lastBlock then some (lastBlock, [])
    else
      let pending := (getPendingPayments dbp).filter
        (fun p => decide (p.chain = chainName))
      if pending.isEmpty then some (currentBlock, [])
      else
        let addrSet := pending.map (fun p => lowerStr p.pay_address)
        let usdcPending := pending.filter (fun p => decide (p.crypto = "USDC"))
        let ethPending := pending.filter (fun p => decide (p.crypto = "ETH"))
        let usdcConfs :=
          if ¬ usdcPending.isEmpty ∧ usdcAddress ≠ none then
            checkUsdcTransfers env usdcPending addrSet
          else []
        let ethConfs :=
          if ¬ ethPending.isEmpty then
            checkEthTransfers env (lastBlock + 1) currentBlock ethPending addrSet
          else []
        some (currentBlock, usdcConfs ++ ethConfs)

/-- Semantics of a JavaScript Map set call on an association list: when the
key is present its value is replaced in place, otherwise the pair is
appended in insertion order. -/
def mapSet (m : List (Rat × Payment)) (k : Rat) (v : Payment) :
    List (Rat × Payment) :=
  if m.any (fun e => decide (e.1 = k)) then
    m.map (fun e => if e.1 = k then (k, v) else e)
  else m ++ [(k, v)]

/-- Working amount map of one Solana tick (solana-monitor.js
_checkNewTransactions): amount_crypto maps to the payment, built over the
pending list in order; a falsy amount_crypto is skipped. -/
def buildAmountMap (pending : List Payment) : List (Rat × Payment) :=
  pending.foldl
    (fun m p =>
      match p.amount_crypto with
      | some a => if a = 0 then m else mapSet m a p
      | none => m)
    []

/-- Matching loop of the Solana monitor for one observed balance delta:
non-positive deltas are skipped; otherwise the first map entry whose
expected amount lies within 0.5 percent of the delta is confirmed, the loop
breaks, and the entry is deleted from the map.  The result is the
confirmed payment, if any, together with the updated map. -/
def processDelta (m : List (Rat × Payment)) (received : Rat) :
    Option Payment × List (Rat × Payment) :=
  if received ≤ 0 then (none, m)
  else
    match m.find? (fun e => decide (|received - e.1| ≤ e.1 * (5 / 1000))) with
    | some e => (some e.2, m.filter (fun x => decide (x.1 ≠ e.1)))
    | none => (none, m)

/-- Price cache of src/lib/prices.js: one price and fetch timestamp per
asset, initialised to price 0 and timestamp 0. -/
structure PriceCache where
  ethPrice : Rat
  ethTs : Int
  solPrice : Rat
  solTs : Int
deriving Repr, DecidableEq

/-- Parsed body of a successful CoinGecko response; a field is none when
the response lacks it. -/
structure PriceData where
  ethereumUsd : Option Rat
  solanaUsd : Option Rat
deriving Repr, DecidableEq

/-- CACHE_TTL in prices.js: 60 seconds in milliseconds. -/
def CACHE_TTL : Int := 60000

/-- fetchPrices: when both cache entries are fresh the cache is returned;
otherwise the network is consulted (none models a failed fetch, whose
error is caught) and each truthy price updates the cache; in every case
the function returns the current cache values, stale or not. -/
def fetchPrices (cache : PriceCache) (now : Int) (net : Option PriceData) :
    PriceCache × (Rat × Rat) :=
  if cache.ethTs > now - CACHE_TTL ∧ cache.solTs > now - CACHE_TTL then
    (cache, (cache.ethPrice, cache.solPrice))
  else
    match net with
    | none => (cache, (cache.ethPrice, cache.solPrice))
    | some d =>
      let c1 :=
        match d.ethereumUsd with
        | some p => if p = 0 then cache else
            { cache with ethPrice := p, ethTs := now }
        | none => cache
      let c2 :=
        match d.solanaUsd with
        | some p => if p = 0 then c1 else
            { c1 with solPrice := p, solTs := now }
        | none => c1
      (c2, (c2.ethPrice, c2.solPrice))

/-- Rounding of prices.js usdToCrypto: Math.ceil(x * 1e8) / 1e8. -/
def ceilTo8 (x : Rat) : Rat := (⌈x * 100000000⌉ : Int) / 100000000

/-- usdToCrypto: USDC converts 1 to 1; otherwise the price returned by
fetchPrices for the asset is used, the call fails when that price is not
positive, and the quotient is rounded up to 8 decimal places. -/
def usdToCrypto (cache : PriceCache) (now : Int) (net : Option PriceData)
    (usd : Rat) (crypto : String) : Except String Rat :=
  if crypto = "USDC" then .ok usd
  else
    let prices := (fetchPrices cache now net).2
    let price := if crypto = "ETH" then prices.1 else prices.2
    if price ≤ 0 then .error ("No price available for " ++ crypto)
    else .ok (ceilTo8 (usd / price))

/-- Outcome of GET /api/download/:slug in src/server.js. -/
inductive DownloadResult where
  | tokenRequired : DownloadResult
  | forbidden : DownloadResult
  | productNotFound : DownloadResult
  | fileNotFound : DownloadResult
  | served : String → DownloadResult
deriving Repr, DecidableEq

/-- SELECT * FROM products WHERE slug = ? AND active = 1 (db.js getProduct). -/
def getProduct (prods : List Product) (slug : String) : Option Product :=
  prods.find? (fun p => decide (p.slug = slug) && p.active)

/-- GET /api/download/:slug: a missing token is 401; a token that matches
no confirmed or delivered payment, or a payment for another product, is
403; then the product row and the file on disk are required; finally a
payment still in status confirmed is marked delivered before the file is
served.  The function returns the HTTP outcome together with the payments
table after the request. -/
def downloadEndpoint (dbp : List Payment) (prods : List Product)
    (fileExists : String → Bool) (slug : String) (token : Option String)
    (now : Int) : DownloadResult × List Payment :=
  match token with
  | none => (.tokenRequired, dbp)
  | some t =>
    match getPaymentByToken dbp t with
    | none => (.forbidden, dbp)
    | some payment =>
      if payment.product_slug ≠ slug then (.forbidden, dbp)
      else
        match getProduct prods slug with
        | none => (.productNotFound, dbp)
        | some product =>
          if ¬ fileExists product.file_path then (.fileNotFound, dbp)
          else
            let dbp2 :=
              if payment.status = "confirmed" then
                markDelivered dbp payment.id now
              else dbp
            (.served product.file_path, dbp2)

/-- Reconciliation callback of src/server.js (handlePaymentConfirmed): a
fresh download token is generated (passed here as an argument) and the
ledger row is confirmed; delivery is handed to an external collaborator. -/
def handlePaymentConfirmed (dbp : List Payment) (payment : Payment)
    (txHash downloadToken : String) (now : Int) : List Payment :=
  confirmPayment dbp payment.id txHash downloadToken now

/-! Concrete fixtures used by counterexamples and witnesses. -/

/-- Freshly created pending USDC intent on Base. -/
def basePayment : Payment :=
  { id := "p1", email := "a@b.c", product_slug := "s", amount_usd := 24,
    amount_crypto := none, crypto := "USDC", chain := "base",
    pay_address := "0xabc", address_index := 0, status := "pending",
    tx_hash := none, download_token := none, created_at := 0,
    confirmed_at := none, delivered_at := none }

/-- The same intent after its first confirmation. -/
def pConfirmed : Payment :=
  { basePayment with
    status := "confirmed", tx_hash := some "0xaaa",
    download_token := some "t1", confirmed_at := some 100 }

/-- The same intent after delivery. -/
def pDelivered : Payment :=
  { pConfirmed with status := "delivered", delivered_at := some 100 }

end Arcwright

namespace Arcwright

/-- C1: the spec requires the pending to confirmed transition to be a single
atomic conditional update, so that re-invocation of the confirmation
operation for an already confirmed intent is a no-op leaving tx_hash,
download_token and confirmed_at unchanged.  The UPDATE in db.js
confirmPayment is conditioned on the id only, so a second invocation of the
reconciliation callback overwrites all three fields, invalidating the
download token that was already e-mailed to the buyer.  This theorem
evaluates the code at the failing input. -/
theorem confirmPayment_second_call_overwrites :
    pConfirmed.status = "confirmed" ∧
    handlePaymentConfirmed [pConfirmed] pConfirmed "0xbbb" "t2" 200 =
      [{ pConfirmed with
         tx_hash := some "0xbbb", download_token := some "t2",
         confirmed_at := some 200 }] ∧
    pConfirmed.tx_hash ≠ some "0xbbb" ∧
    pConfirmed.download_token ≠ some "t2" ∧
    pConfirmed.confirmed_at ≠ some 200 := by
  decide

/-- C3: the expiry sweep is a single UPDATE conditioned on status = pending
and created_at strictly below now minus the timeout; it therefore never
changes a non-pending row, and one pass moves every sufficiently old
pending row to expired. -/
theorem expiry_sweep_correct (dbp : List Payment) (timeoutMs now : Int)
    (p : Payment) :
    expireOldPayments dbp timeoutMs now = dbp.map (expireRow (now - timeoutMs)) ∧
    (p.status ≠ "pending" → expireRow (now - timeoutMs) p = p) ∧
    (p.status = "pending" → p.created_at < now - timeoutMs →
      (expireRow (now - timeoutMs) p).status = "expired") := by
  refine ⟨rfl, ?_, ?_⟩
  · intro h
    simp [expireRow, h]
  · intro h1 h2
    simp [expireRow, h1, h2]

/-- Witness for C3 at concrete rows: a confirmed row is untouched by the
sweep and an old pending row is expired. -/
theorem expiry_sweep_correct_witness :
    expireRow (5000 - 1000) pConfirmed = pConfirmed ∧
    (expireRow (5000 - 1000) basePayment).status = "expired" :=
  ⟨(expiry_sweep_correct [basePayment] 1000 5000 pConfirmed).2.1 (by decide),
   (expiry_sweep_correct [basePayment] 1000 5000 basePayment).2.2
     (by decide) (by decide)⟩

/-- C7 counterexample: markDelivered is an UPDATE conditioned on the id
only, so calling it again on an already delivered row overwrites the
stored delivery timestamp, contrary to the claim that later calls leave
it unchanged. -/
theorem markDelivered_second_call_overwrites :
    pDelivered.delivered_at = some 100 ∧
    markDelivered [pDelivered] "p1" 500 =
      [{ pDelivered with delivered_at := some 500 }] ∧
    some (500 : Int) ≠ some (100 : Int) := by
  decide

/-- Tick environment in which getBlockNumber succeeds with block 10 but the
getLogs call throws, and every block fetch returns a null block. -/
def envLogsErr : ChainEnv :=
  { blockNumber := some 10, logs := none, blocks := fun _ => .missing }

/-- Tick environment in which getBlockNumber itself throws. -/
def envRpcErr : ChainEnv :=
  { blockNumber := none, logs := none, blocks := fun _ => .missing }

/-- Payments table holding one pending USDC intent on Base. -/
def dbUsdc : List Payment := [basePayment]

/-- Payments table holding one pending native-ETH intent on Base. -/
def dbEth : List Payment :=
  [{ basePayment with crypto := "ETH", amount_crypto := some (1 / 100) }]

/-- C2 counterexample: in a tick where the USDC log query throws (an RPC
error during scanning), the error is caught inside _checkUsdcTransfers and
_checkNewBlocks still assigns lastBlock = currentBlock, so the watermark
jumps from 0 to 10 and blocks 1 to 10 are never re-scanned, contrary to
the claim that the watermark is not advanced past the point reached. -/
theorem scanError_watermark_advances :
    envLogsErr.logs = none ∧
    checkNewBlocks envLogsErr 0 dbUsdc "base" (some "0xusdc") =
      some (10, []) ∧
    (10 : Int) ≠ 0 := by
  decide

/-- C2 amended: only a failure of the getBlockNumber call aborts the tick
with the watermark unchanged; whenever getBlockNumber succeeds with a block
above the watermark, the tick ends with the watermark set to that block,
even when the log query or a block fetch failed inside the scan
subroutines. -/
theorem watermark_advance_policy (env : ChainEnv) (lastBlock : Int)
    (dbp : List Payment) (chainName : String) (usdcAddress : Option String) :
    (env.blockNumber = none →
      checkNewBlocks env lastBlock dbp chainName usdcAddress = none) ∧
    (∀ cur, env.blockNumber = some cur → lastBlock < cur →
      ∃ confs, checkNewBlocks env lastBlock dbp chainName usdcAddress =
        some (cur, confs)) := by
  constructor
  · intro h
    simp [checkNewBlocks, h]
  · intro cur h hlt
    simp only [checkNewBlocks, h]
    rw [if_neg (not_le.mpr hlt)]
    split
    · exact ⟨[], rfl⟩
    · exact ⟨_, rfl⟩

/-- Witness for C2 amended at concrete ticks: a thrown getBlockNumber
leaves the watermark alone, and a thrown log query does not stop the
watermark from advancing to block 10. -/
theorem watermark_advance_policy_witness :
    checkNewBlocks envRpcErr 0 [] "base" none = none ∧
    ∃ confs, checkNewBlocks envLogsErr 0 dbUsdc "base" (some "0xusdc") =
      some (10, confs) :=
  ⟨(watermark_advance_policy envRpcErr 0 [] "base" none).1 rfl,
   (watermark_advance_policy envLogsErr 0 dbUsdc "base" (some "0xusdc")).2
     10 rfl (by decide)⟩

/-- C6 counterexample: with the watermark at 0 and the chain at block 10,
the native scan only visits blocks 6 to 10; block 3 of the pending range is
not visited, the tick still ends with the watermark at 10, and the next
tick scans from block 11 on, so block 3 is never picked up, contrary to
the claim that older blocks of the pending range are scanned later. -/
theorem eth_scan_skips_old_blocks :
    ethScannedBlocks 1 10 = [6, 7, 8, 9, 10] ∧
    (3 : Int) ∉ ethScannedBlocks 1 10 ∧
    checkNewBlocks envLogsErr 0 dbEth "base" none = some (10, []) ∧
    (3 : Int) ∉ ethScannedBlocks 11 20 := by
  decide

/-- C6 amended: the native scan visits at most 5 blocks per tick, namely
the newest blocks of the range; a block below the 5-block window is not
visited in the current tick, and is also not visited by any later tick,
whose range starts above the advanced watermark. -/
theorem eth_scan_window_cap (fromBlock toBlock b : Int) :
    (ethScannedBlocks fromBlock toBlock).length ≤ 5 ∧
    (b < max fromBlock (toBlock - 5 + 1) → b ∉ ethScannedBlocks fromBlock toBlock) ∧
    (b < fromBlock → b ∉ ethScannedBlocks fromBlock toBlock) := by
  refine ⟨?_, ?_, ?_⟩
  · simp only [ethScannedBlocks, List.length_map, List.length_range]
    have h1 := le_max_right fromBlock (toBlock - 5 + 1)
    omega
  · intro hb hmem
    simp only [ethScannedBlocks, List.mem_map, List.mem_range] at hmem
    obtain ⟨i, hi, hbi⟩ := hmem
    omega
  · intro hb hmem
    simp only [ethScannedBlocks, List.mem_map, List.mem_range] at hmem
    obtain ⟨i, hi, hbi⟩ := hmem
    have h1 := le_max_left fromBlock (toBlock - 5 + 1)
    omega

/-- Witness for C6 amended at a concrete range: the window for blocks 1 to
10 has 5 entries and misses blocks 3 and 0. -/
theorem eth_scan_window_cap_witness :
    (ethScannedBlocks 1 10).length ≤ 5 ∧
    (3 : Int) ∉ ethScannedBlocks 1 10 ∧
    (0 : Int) ∉ ethScannedBlocks 1 10 :=
  ⟨(eth_scan_window_cap 1 10 3).1,
   (eth_scan_window_cap 1 10 3).2.1 (by decide),
   (eth_scan_window_cap 1 10 0).2.2 (by decide)⟩

/-- Helper: a confirmed delta is positive and comes from a map entry within
the 0.5 percent tolerance, and that entry is deleted from the working map. -/
theorem processDelta_some (m : List (Rat × Payment)) (received : Rat)
    (q : Payment) (m2 : List (Rat × Payment))
    (h : processDelta m received = (some q, m2)) :
    0 < received ∧ ∃ k, (k, q) ∈ m ∧ |received - k| ≤ k * (5 / 1000) ∧
      ∀ v, (k, v) ∉ m2 := by
  unfold processDelta at h
  by_cases hr : received ≤ 0
  · rw [if_pos hr] at h
    simp at h
  · rw [if_neg hr] at h
    cases hf : m.find? (fun e => decide (|received - e.1| ≤ e.1 * (5 / 1000))) with
    | none =>
      rw [hf] at h
      simp at h
    | some e =>
      rw [hf] at h
      simp only [Prod.mk.injEq, Option.some.injEq] at h
      obtain ⟨hq, hm2⟩ := h
      have hmem := List.mem_of_find?_eq_some hf
      have hpred := List.find?_some hf
      rw [decide_eq_true_eq] at hpred
      refine ⟨lt_of_not_le hr, e.1, ?_, hpred, ?_⟩
      · rw [← hq]
        exact hmem
      · intro v hv
        rw [← hm2] at hv
        have := (List.mem_filter.mp hv).2
        simp at this

/-- Helper: a delta that confirms some payment confirms one drawn from the
working map. -/
theorem processDelta_fst_some (m : List (Rat × Payment)) (received : Rat)
    (q : Payment) (h : (processDelta m received).1 = some q) :
    ∃ k, (k, q) ∈ m := by
  unfold processDelta at h
  by_cases hr : received ≤ 0
  · rw [if_pos hr] at h
    simp at h
  · rw [if_neg hr] at h
    cases hf : m.find? (fun e => decide (|received - e.1| ≤ e.1 * (5 / 1000))) with
    | none =>
      rw [hf] at h
      simp at h
    | some e =>
      rw [hf] at h
      simp only [Option.some.injEq] at h
      refine ⟨e.1, ?_⟩
      rw [← h]
      exact List.mem_of_find?_eq_some hf

/-- Helper: processing a delta never adds entries to the working map. -/
theorem processDelta_sub (m : List (Rat × Payment)) (received : Rat) :
    ∀ e, e ∈ (processDelta m received).2 → e ∈ m := by
  intro e he
  unfold processDelta at he
  by_cases hr : received ≤ 0
  · rw [if_pos hr] at he
    exact he
  · rw [if_neg hr] at he
    cases hf : m.find? (fun x => decide (|received - x.1| ≤ x.1 * (5 / 1000))) with
    | none =>
      rw [hf] at he
      exact he
    | some x =>
      rw [hf] at he
      exact (List.mem_filter.mp he).1

/-- C4: a positive Solana balance delta is confirmed only against a map
entry whose expected amount is within 0.5 percent of the delta; the matched
entry is deleted from the working map so it cannot match again within the
tick, and the loop breaks after the first match so one delta confirms at
most one intent. -/
theorem solana_match_tolerance_unique (m : List (Rat × Payment))
    (received : Rat) (q : Payment) (m2 : List (Rat × Payment))
    (h : processDelta m received = (some q, m2)) :
    0 < received ∧
    (∃ k, (k, q) ∈ m ∧ |received - k| ≤ k * (5 / 1000) ∧ ∀ v, (k, v) ∉ m2) ∧
    (∀ q2, (processDelta m received).1 = some q2 → q2 = q) := by
  obtain ⟨h1, h2⟩ := processDelta_some m received q m2 h
  refine ⟨h1, h2, ?_⟩
  intro q2 h3
  rw [h] at h3
  exact (Option.some.injEq _ _).mp h3.symm

/-- Pending SOL intent expecting exactly 1.000000 SOL. -/
def pSolA : Payment :=
  { basePayment with
    id := "a", crypto := "SOL", chain := "solana",
    pay_address := "SOLADDR", amount_crypto := some 1 }

/-- Pending SOL intent expecting exactly 1.000001 SOL. -/
def pSolB : Payment :=
  { basePayment with
    id := "b", crypto := "SOL", chain := "solana",
    pay_address := "SOLADDR", amount_crypto := some (1000001 / 1000000) }

/-- Working amount map holding both nearby SOL intents. -/
def mSol : List (Rat × Payment) := [(1, pSolA), (1000001 / 1000000, pSolB)]

/-- Witness for C4 at the boundary example of the claim: a delta of
1.0000005 SOL against expected amounts 1.000000 and 1.000001 confirms
exactly one intent (the first in map order) and removes it from the map. -/
theorem solana_match_tolerance_unique_witness :
    0 < (10000005 / 10000000 : Rat) ∧
    (∃ k, (k, pSolA) ∈ mSol ∧
      |(10000005 / 10000000 : Rat) - k| ≤ k * (5 / 1000) ∧
      ∀ v, (k, v) ∉ [((1000001 : Rat) / 1000000, pSolB)]) ∧
    (∀ q2, (processDelta mSol (10000005 / 10000000)).1 = some q2 → q2 = pSolA) :=
  solana_match_tolerance_unique mSol (10000005 / 10000000) pSolA
    [(1000001 / 1000000, pSolB)]
    (by
      have hf : List.find?
          (fun e => decide (|(10000005 / 10000000 : Rat) - e.1| ≤ e.1 * (5 / 1000)))
          mSol = some (1, pSolA) := by
        rw [show mSol = ((1 : Rat), pSolA) :: [((1000001 : Rat) / 1000000, pSolB)]
          from rfl]
        exact List.find?_cons_of_pos _
          (decide_eq_true (by rw [abs_of_nonneg (by norm_num)]; norm_num))
      have hfil : List.filter (fun x => decide (x.1 ≠ (1 : Rat))) mSol
          = [((1000001 : Rat) / 1000000, pSolB)] := by
        rw [show mSol = ((1 : Rat), pSolA) :: [((1000001 : Rat) / 1000000, pSolB)]
          from rfl]
        rw [List.filter_cons_of_neg (by simp)]
        rw [List.filter_cons_of_pos (p := fun x => decide (x.1 ≠ (1 : Rat)))
          (a := ((1000001 : Rat) / 1000000, pSolB)) (l := [])
          (decide_eq_true (by norm_num))]
        rw [List.filter_nil]
      unfold processDelta
      rw [if_neg (by norm_num), hf]
      dsimp only
      rw [hfil])

/-- C5: when two pending SOL intents carry the same nonzero expected
amount, the working map built for the tick keeps only the later intent (a
JavaScript Map set replaces the value stored under an existing key), so
the earlier intent cannot be confirmed by any delta of that tick, not even
by a second matching delta. -/
theorem solana_equal_amounts_last_wins (p1 p2 : Payment) (a : Rat)
    (h1 : p1.amount_crypto = some a) (h2 : p2.amount_crypto = some a)
    (ha : a ≠ 0) (hne : p1 ≠ p2) (r1 r2 : Rat) :
    buildAmountMap [p1, p2] = [(a, p2)] ∧
    (processDelta (buildAmountMap [p1, p2]) r1).1 ≠ some p1 ∧
    (processDelta ((processDelta (buildAmountMap [p1, p2]) r1).2) r2).1 ≠
      some p1 := by
  have hmap : buildAmountMap [p1, p2] = [(a, p2)] := by
    simp [buildAmountMap, List.foldl, h1, h2, ha, mapSet]
  refine ⟨hmap, ?_, ?_⟩
  · intro hc
    obtain ⟨k, hk⟩ := processDelta_fst_some _ r1 p1 hc
    rw [hmap] at hk
    simp at hk
    exact hne hk.2
  · intro hc
    obtain ⟨k, hk⟩ := processDelta_fst_some _ r2 p1 hc
    have hk2 := processDelta_sub (buildAmountMap [p1, p2]) r1 _ hk
    rw [hmap] at hk2
    simp at hk2
    exact hne hk2.2

/-- Pending SOL intent expecting 2 SOL, first in creation order. -/
def pEq1 : Payment :=
  { basePayment with
    id := "e1", crypto := "SOL", chain := "solana",
    pay_address := "SOLADDR", amount_crypto := some 2 }

/-- Pending SOL intent expecting 2 SOL, second in creation order. -/
def pEq2 : Payment :=
  { basePayment with
    id := "e2", crypto := "SOL", chain := "solana",
    pay_address := "SOLADDR", amount_crypto := some 2 }

/-- Witness for C5 at two concrete equal-amount SOL intents and two exact
matching deltas: the map keeps only the later intent and the earlier one is
confirmed by neither delta. -/
theorem solana_equal_amounts_last_wins_witness :
    buildAmountMap [pEq1, pEq2] = [(2, pEq2)] ∧
    (processDelta (buildAmountMap [pEq1, pEq2]) 2).1 ≠ some pEq1 ∧
    (processDelta ((processDelta (buildAmountMap [pEq1, pEq2]) 2).2) 2).1 ≠
      some pEq1 :=
  solana_equal_amounts_last_wins pEq1 pEq2 2 (by decide) (by decide)
    (by decide) (by decide) 2 2

/-- Price cache whose prices were fetched at time 0, far outside the
60-second freshness window by time 1000000. -/
def staleCache : PriceCache :=
  { ethPrice := 2000, ethTs := 0, solPrice := 100, solTs := 0 }

/-- C8 counterexample: at time 1000000 the cached ETH price from time 0 is
far older than the freshness window and the refresh attempt fails (net is
none), yet usdToCrypto silently converts 24 USD at the stale price 2000
instead of failing, contrary to the claim that it fails whenever no price
has been fetched within the freshness window. -/
theorem stale_price_still_converts :
    usdToCrypto staleCache 1000000 none 24 "ETH" = Except.ok (3 / 250) ∧
    staleCache.ethTs ≤ 1000000 - CACHE_TTL := by
  constructor
  · have hp : (fetchPrices staleCache 1000000 none).2 = (2000, 100) := by
      unfold fetchPrices
      rw [if_neg (by decide)]
      rfl
    unfold usdToCrypto
    rw [if_neg (by decide), hp]
    simp only [reduceIte]
    rw [if_neg (by norm_num)]
    unfold ceilTo8
    have h24 : ((24 : Rat) / 2000) * 100000000 = ((1200000 : Int) : Rat) := by
      norm_num
    rw [h24, Int.ceil_intCast]
    norm_num
  · decide

/-- C8 amended: usdToCrypto returns the USD amount unchanged for USDC; for
ETH and SOL it fails exactly when the price that fetchPrices returns is not
positive, which happens only when no positive price was ever cached — a
cached price older than the freshness window is still returned by
fetchPrices when the refresh attempt fails, and is then used for the
conversion. -/
theorem usdToCrypto_policy (cache : PriceCache) (now : Int)
    (net : Option PriceData) (usd : Rat) :
    usdToCrypto cache now net usd "USDC" = Except.ok usd ∧
    (usdToCrypto cache now net usd "ETH" = Except.error "No price available for ETH" ↔
      (fetchPrices cache now net).2.1 ≤ 0) ∧
    (usdToCrypto cache now net usd "SOL" = Except.error "No price available for SOL" ↔
      (fetchPrices cache now net).2.2 ≤ 0) := by
  refine ⟨rfl, ?_, ?_⟩
  · have e1 : usdToCrypto cache now net usd "ETH" =
        (if (fetchPrices cache now net).2.1 ≤ 0 then
          Except.error "No price available for ETH"
        else Except.ok (ceilTo8 (usd / (fetchPrices cache now net).2.1))) := by
      unfold usdToCrypto
      rw [if_neg (by decide)]
      simp only [reduceIte]
      rw [(by decide :
        "No price available for " ++ "ETH" = "No price available for ETH")]
    rw [e1]
    constructor
    · intro h
      by_cases hp : (fetchPrices cache now net).2.1 ≤ 0
      · exact hp
      · rw [if_neg hp] at h
        exact absurd h (by simp)
    · intro hp
      rw [if_pos hp]
  · have e2 : usdToCrypto cache now net usd "SOL" =
        (if (fetchPrices cache now net).2.2 ≤ 0 then
          Except.error "No price available for SOL"
        else Except.ok (ceilTo8 (usd / (fetchPrices cache now net).2.2))) := by
      unfold usdToCrypto
      rw [if_neg (by decide)]
      simp only [if_neg (show ¬ ("SOL" = "ETH") from by decide)]
      rw [(by decide :
        "No price available for " ++ "SOL" = "No price available for SOL")]
    rw [e2]
    constructor
    · intro h
      by_cases hp : (fetchPrices cache now net).2.2 ≤ 0
      · exact hp
      · rw [if_neg hp] at h
        exact absurd h (by simp)
    · intro hp
      rw [if_pos hp]

/-- C9: once a decoded USDC transfer log reaches the pay_address of a
pending intent, the match is accepted exactly when the transferred amount
is at least 99 percent of amount_usd (the crypto-equivalent for the
USD-pegged asset); at the boundary, exactly 99.0 percent of the expected
amount is accepted and 98.9 percent is rejected. -/
theorem usdc_tolerance_boundary (pending : List Payment)
    (addrSet : List String) (log : EvmLog) (payment : Payment)
    (hfind : pending.find?
      (fun p => decide (lowerStr p.pay_address = lowerStr log.toAddr)) =
      some payment)
    (haddr : addrSet.contains (lowerStr log.toAddr) = true) :
    (usdcLogConfirm pending addrSet log =
      some ⟨payment, log.txHash, log.amount⟩ ↔
      payment.amount_usd * (99 / 100) ≤ log.amount) ∧
    (∀ e : Rat, 0 < e →
      (e * (99 / 100) ≤ e * (990 / 1000)) ∧
      ¬ (e * (99 / 100) ≤ e * (989 / 1000))) := by
  constructor
  · have h1 : usdcLogConfirm pending addrSet log =
        (if payment.amount_usd * (99 / 100) ≤ log.amount then
          some ⟨payment, log.txHash, log.amount⟩ else none) := by
      unfold usdcLogConfirm
      rw [haddr, if_pos rfl, hfind]
    rw [h1]
    constructor
    · intro h
      by_cases hc : payment.amount_usd * (99 / 100) ≤ log.amount
      · exact hc
      · rw [if_neg hc] at h
        exact absurd h (by simp)
    · intro hc
      rw [if_pos hc]
  · intro e he
    constructor
    · apply le_of_eq
      ring
    · rw [not_le]
      apply mul_lt_mul_of_pos_left _ he
      norm_num

/-- USDC transfer log of exactly 99 percent of the 24 USD expected amount,
addressed to the pay_address of the pending fixture intent. -/
def log99 : EvmLog := { toAddr := "0xABC", amount := 2376 / 100, txHash := "0xt" }

/-- Witness for C9 at the fixture intent (24 USD expected) and a log of
exactly 23.76 USDC: the acceptance condition is equivalent to the 99
percent threshold, accepted at 99.0 percent and rejected at 98.9. -/
theorem usdc_tolerance_boundary_witness :
    (usdcLogConfirm [basePayment] ["0xabc"] log99 =
      some ⟨basePayment, log99.txHash, log99.amount⟩ ↔
      basePayment.amount_usd * (99 / 100) ≤ log99.amount) ∧
    (∀ e : Rat, 0 < e →
      (e * (99 / 100) ≤ e * (990 / 1000)) ∧
      ¬ (e * (99 / 100) ≤ e * (989 / 1000))) :=
  usdc_tolerance_boundary [basePayment] ["0xabc"] log99 basePayment
    (by decide) (by decide)

/-- Helper: shape of the download endpoint once the token has resolved to a
payment row. -/
theorem downloadEndpoint_eq (dbp : List Payment) (prods : List Product)
    (fe : String → Bool) (slug t : String) (now : Int) (payment : Payment)
    (h : getPaymentByToken dbp t = some payment) :
    downloadEndpoint dbp prods fe slug (some t) now =
      (if payment.product_slug ≠ slug then (.forbidden, dbp)
       else
         match getProduct prods slug with
         | none => (.productNotFound, dbp)
         | some product =>
           if ¬ fe product.file_path then (.fileNotFound, dbp)
           else (.served product.file_path,
             if payment.status = "confirmed" then
               markDelivered dbp payment.id now
             else dbp)) := by
  simp only [downloadEndpoint, h]

/-- Helper: a row found under a token is a row of the table, carries that
token, and is confirmed or delivered. -/
theorem getPaymentByToken_some (dbp : List Payment) (t : String) (p : Payment)
    (h : getPaymentByToken dbp t = some p) :
    p ∈ dbp ∧ p.download_token = some t ∧
      (p.status = "confirmed" ∨ p.status = "delivered") := by
  have hmem := List.mem_of_find?_eq_some h
  have hpred := List.find?_some h
  simp at hpred
  exact ⟨hmem, hpred.1, hpred.2⟩

/-- C7 amended: the raw markDelivered update overwrites the delivery
timestamp on every call, but the download endpoint, the only repeat
caller, invokes it only for a payment still in status confirmed; so via
the endpoint only the first successful download marks the row delivered,
and any later download of the already delivered row leaves the payments
table unchanged. -/
theorem download_delivery_timestamp_once (dbp : List Payment)
    (prods : List Product) (fe : String → Bool) (slug t : String) (now : Int)
    (payment : Payment) (h : getPaymentByToken dbp t = some payment) :
    (payment.status = "delivered" →
      (downloadEndpoint dbp prods fe slug (some t) now).2 = dbp) ∧
    (∀ fp dbp2, downloadEndpoint dbp prods fe slug (some t) now =
        (DownloadResult.served fp, dbp2) →
      payment.status = "confirmed" →
      dbp2 = markDelivered dbp payment.id now) := by
  constructor
  · intro hd
    have hnc : ¬ payment.status = "confirmed" := by
      rw [hd]
      decide
    rw [downloadEndpoint_eq dbp prods fe slug t now payment h]
    split
    · rfl
    · split
      · rfl
      · split
        · rfl
        · simp [hnc]
  · intro fp dbp2 heq hc
    rw [downloadEndpoint_eq dbp prods fe slug t now payment h] at heq
    split at heq
    · simp at heq
    · split at heq
      · simp at heq
      · split at heq
        · simp at heq
        · simp only [Prod.mk.injEq] at heq
          rw [← heq.2]

/-- Product catalogue fixture: one active product with slug s. -/
def prodsW : List Product :=
  [{ slug := "s", name := "S", description := "", price_usd := 24,
     file_path := "f.zip", active := true }]

/-- Witness for C7 amended: downloading the already delivered fixture row
again leaves the payments table unchanged. -/
theorem download_delivery_timestamp_once_witness :
    (downloadEndpoint [pDelivered] prodsW (fun _ => true) "s"
      (some "t1") 999).2 = [pDelivered] :=
  (download_delivery_timestamp_once [pDelivered] prodsW (fun _ => true)
    "s" "t1" 999 pDelivered (by decide)).1 (by decide)

/-- C10: the download endpoint serves a file only for a token that resolves
to a confirmed or delivered payment whose product_slug equals the requested
slug; every rejected request leaves the payments table unchanged; a token
payment for a different product is rejected with 403; and a token held only
by rows that are neither confirmed nor delivered (pending or expired) is
rejected with 403 without any state change. -/
theorem download_endpoint_gating (dbp : List Payment) (prods : List Product)
    (fe : String → Bool) (slug t : String) (now : Int) :
    (∀ fp dbp2, downloadEndpoint dbp prods fe slug (some t) now =
        (DownloadResult.served fp, dbp2) →
      ∃ payment, getPaymentByToken dbp t = some payment ∧
        payment.download_token = some t ∧ payment.product_slug = slug ∧
        (payment.status = "confirmed" ∨ payment.status = "delivered")) ∧
    (∀ r dbp2, downloadEndpoint dbp prods fe slug (some t) now = (r, dbp2) →
      (∀ fp, r ≠ DownloadResult.served fp) → dbp2 = dbp) ∧
    (∀ payment, getPaymentByToken dbp t = some payment →
      payment.product_slug ≠ slug →
      downloadEndpoint dbp prods fe slug (some t) now =
        (DownloadResult.forbidden, dbp)) ∧
    ((∀ p, p ∈ dbp → p.download_token = some t →
        p.status ≠ "confirmed" ∧ p.status ≠ "delivered") →
      downloadEndpoint dbp prods fe slug (some t) now =
        (DownloadResult.forbidden, dbp)) := by
  refine ⟨?_, ?_, ?_, ?_⟩
  · intro fp dbp2 heq
    cases hgp : getPaymentByToken dbp t with
    | none =>
      simp only [downloadEndpoint, hgp] at heq
      simp at heq
    | some payment =>
      obtain ⟨hmem, htok, hst⟩ := getPaymentByToken_some dbp t payment hgp
      rw [downloadEndpoint_eq dbp prods fe slug t now payment hgp] at heq
      split at heq
      · simp at heq
      · next hslug =>
        split at heq
        · simp at heq
        · split at heq
          · simp at heq
          · exact ⟨payment, rfl, htok, not_not.mp hslug, hst⟩
  · intro r dbp2 heq hns
    cases hgp : getPaymentByToken dbp t with
    | none =>
      simp only [downloadEndpoint, hgp] at heq
      simp only [Prod.mk.injEq] at heq
      exact heq.2.symm
    | some payment =>
      rw [downloadEndpoint_eq dbp prods fe slug t now payment hgp] at heq
      split at heq
      · simp only [Prod.mk.injEq] at heq
        exact heq.2.symm
      · split at heq
        · simp only [Prod.mk.injEq] at heq
          exact heq.2.symm
        · split at heq
          · simp only [Prod.mk.injEq] at heq
            exact heq.2.symm
          · simp only [Prod.mk.injEq] at heq
            exact absurd heq.1.symm (hns _)
  · intro payment hgp hne
    rw [downloadEndpoint_eq dbp prods fe slug t now payment hgp]
    rw [if_pos hne]
  · intro hall
    cases hgp : getPaymentByToken dbp t with
    | none => simp only [downloadEndpoint, hgp]
    | some payment =>
      obtain ⟨hmem, htok, hst⟩ := getPaymentByToken_some dbp t payment hgp
      obtain ⟨hn1, hn2⟩ := hall payment hmem htok
      cases hst with
      | inl h1 => exact absurd h1 hn1
      | inr h2 => exact absurd h2 hn2

/-- Witness for C10: serving the confirmed fixture payment yields a payment
that holds the token, matches the slug and is confirmed. -/
theorem download_endpoint_gating_witness :
    ∃ payment, getPaymentByToken [pConfirmed] "t1" = some payment ∧
      payment.download_token = some "t1" ∧ payment.product_slug = "s" ∧
      (payment.status = "confirmed" ∨ payment.status = "delivered") :=
  (download_endpoint_gating [pConfirmed] prodsW (fun _ => true)
    "s" "t1" 300).1 "f.zip" (markDelivered [pConfirmed] "p1" 300) (by decide)

end Arcwright
